import Mathlib

/-!
Verification of the federation composition validator (`externalUnused`) and the
composed-SDL serializer (`printComposedSdl`) of the `federation-js` package.

The development is a shallow embedding: the TypeScript data model becomes Lean
structures, the two source files become executable Lean functions, and the
JavaScript mutable state of the serializer (a module-scoped key counter and the
fragment caches the code stores on the schema type objects) becomes an explicit
`PrinterState` value threaded through the functions, so that what one call
leaves behind is exactly what the next call in the same process observes.
-/

namespace Fed

/-- A parsed selection: a field name with an optional nested selection set
(empty list = no nested set).  This is the `SelectionSet` data model of the
spec (each selection names a field and optionally carries a nested set). -/
inductive Selection where
  | field (name : String) (sub : List Selection)
deriving Repr

mutual

/-- Decidable equality for selections (the automatic derivation does not
handle the nested occurrence of `List Selection`). -/
def Selection.decEq : (a b : Selection) → Decidable (a = b)
  | .field n1 s1, .field n2 s2 =>
    match String.decEq n1 n2, Selection.decEqList s1 s2 with
    | isTrue h1, isTrue h2 => isTrue (by rw [h1, h2])
    | isFalse h1, _ => isFalse (by intro h; injection h; contradiction)
    | isTrue _, isFalse h2 => isFalse (by intro h; injection h; contradiction)

/-- Decidable equality for lists of selections. -/
def Selection.decEqList : (a b : List Selection) → Decidable (a = b)
  | [], [] => isTrue rfl
  | [], _ :: _ => isFalse (by intro h; cases h)
  | _ :: _, [] => isFalse (by intro h; cases h)
  | a :: as, b :: bs =>
    match Selection.decEq a b, Selection.decEqList as bs with
    | isTrue h1, isTrue h2 => isTrue (by rw [h1, h2])
    | isFalse h1, _ => isFalse (by intro h; injection h; contradiction)
    | isTrue _, isFalse h2 => isFalse (by intro h; injection h; contradiction)

end

instance : DecidableEq Selection := Selection.decEq

deriving instance DecidableEq for Except

/-- A field return-type reference: a named type possibly wrapped in List /
NonNull wrappers. -/
inductive TypeRef where
  | named (name : String)
  | list (t : TypeRef)
  | nonNull (t : TypeRef)
deriving DecidableEq, Repr

/-- Strip List / NonNull wrappers down to the named type (graphql `getNamedType`). -/
def TypeRef.unwrap : TypeRef → String
  | .named n => n
  | .list t => t.unwrap
  | .nonNull t => t.unwrap

/-- Render a type reference the way graphql-js `String(type)` does. -/
def TypeRef.render : TypeRef → String
  | .named n => n
  | .list t => "[" ++ t.render ++ "]"
  | .nonNull t => t.render ++ "!"

/-- Association-list lookup by string key (models JS object / Map indexing). -/
def assocFind {α : Type} (l : List (String × α)) (k : String) : Option α :=
  match l with
  | [] => none
  | (k1, v) :: rest => if k1 == k then some v else assocFind rest k

/-- JS truthiness of an optional string: `undefined` and the empty string are
falsy, every other string is truthy. -/
def jsStrTruthy (o : Option String) : Bool :=
  match o with
  | none => false
  | some s => s != ""

/-! ## Data model of the composed schema, as seen by the validator

Types and fields reference each other by name and are resolved through the
schema's type map (the arena of §9 of the spec), never by embedded pointers. -/

/-- A directive argument value. Modelled from the spec: `parseFieldSet` is not
part of the sources under verification, so a string-valued field-set argument
is carried already parsed into its selection set (§4.1); malformed field-set
text aborts the whole pass upstream and is out of scope.  `other` stands for
any non-string argument value (`isStringValueNode` fails on it). -/
inductive ArgValue where
  | str (sels : List Selection)
  | other
deriving DecidableEq, Repr

/-- A directive application on an AST node.  `arguments` is `none` when the
node carries no argument list; the GraphQL grammar guarantees that a present
argument list is nonempty. -/
structure DirectiveApp where
  name : String
  arguments : Option (List ArgValue)
deriving DecidableEq, Repr

/-- The AST declaration node of a field: its name and its directives. -/
structure FieldAstNode where
  name : String
  directives : List DirectiveApp
deriving DecidableEq, Repr

/-- One entry of the `externals` metadata: the original field declaration
from the service that marked the field `@external`. -/
structure ExternalFieldRef where
  field : FieldAstNode
deriving DecidableEq, Repr

/-- `TypeFederationMetadata`: owning service, per-service `@key` selection
sets, per-service external field declarations. -/
structure TypeFedMeta where
  serviceName : Option String
  keys : Option (List (String × List (List Selection)))
  externals : Option (List (String × List ExternalFieldRef))
deriving DecidableEq, Repr

/-- `FieldFederationMetadata`, as far as the validator reads it: the owning
service of the field. -/
structure FieldFedMeta where
  serviceName : Option String
deriving DecidableEq, Repr

/-- A field of an Object or Interface type. -/
structure FieldDef where
  name : String
  returnType : TypeRef
  astNode : Option FieldAstNode
  federation : Option FieldFedMeta
deriving DecidableEq, Repr

/-- The AST declaration node of a type, as far as the validator reads it:
its directive applications (`@key` among them). -/
structure TypeAstNode where
  directives : List DirectiveApp
deriving DecidableEq, Repr

/-- The data of an Object (or Interface) type: fields, implemented interface
names, declaration AST, federation metadata. -/
structure ObjectData where
  fields : List FieldDef
  interfaces : List String
  astNode : Option TypeAstNode
  federation : Option TypeFedMeta
deriving DecidableEq, Repr

/-- A named type of the composed schema.  The validator only inspects the
data of Object types (and of Interface types reached through `getInterfaces`);
the value-type kinds carry no data it ever reads. -/
inductive NamedType where
  | object (d : ObjectData)
  | interface (d : ObjectData)
  | scalar
  | union
  | enum
  | inputObject
deriving DecidableEq, Repr

/-- The composed schema: `getTypeMap()` as an ordered name-to-type map. -/
structure Schema where
  types : List (String × NamedType)
deriving DecidableEq, Repr

def lookupType (schema : Schema) (name : String) : Option NamedType :=
  assocFind schema.types name

/-- Directives of an optional type AST node (absent node has none). -/
def typeAstDirectives (node : Option TypeAstNode) : List DirectiveApp :=
  match node with
  | none => []
  | some a => a.directives

/-- Directives of an optional field AST node (absent node has none). -/
def fieldAstDirectives (node : Option FieldAstNode) : List DirectiveApp :=
  match node with
  | none => []
  | some a => a.directives

/-- `findDirectivesOnNode`: all directive applications of the given name on a
node, in source order. Modelled from the spec (§4.2). -/
def findDirectivesOnNode (directives : List DirectiveApp) (name : String) : List DirectiveApp :=
  directives.filter (fun d => d.name == name)

/-- The parsed field set of a directive's first argument: `none` when the
argument list is absent or its first value is not a string
(`directive.arguments && isStringValueNode(directive.arguments[0].value) &&
parseFieldSet(...)` in the source). -/
def firstArgFieldSet (d : DirectiveApp) : Option (List Selection) :=
  match d.arguments with
  | none => none
  | some (ArgValue.str sels :: _) => some sels
  | some _ => none

/-- `hasMatchingFieldInDirectives`: true iff some directive in the list has a
field-set argument whose top-level selections contain a selection literally
named `fieldNameToMatch` — top-level only, by design. Modelled from the spec
(§4.1).  In this model every selection is a field selection, so the source's
`Kind.FIELD` test is always satisfied. -/
def hasMatchingFieldInDirectives (directives : List DirectiveApp) (fieldNameToMatch : String) : Bool :=
  directives.any fun d =>
    match firstArgFieldSet d with
    | some sels => sels.any fun s => match s with | .field n _ => n == fieldNameToMatch
    | none => false

/-- Fields of a type, when it is an Object or Interface type. -/
def fieldsOfType : NamedType → List FieldDef
  | .object d => d.fields
  | .interface d => d.fields
  | _ => []

/-- `findFieldsThatReturnType`: every field of every Object/Interface type
whose return type, after stripping List/NonNull wrappers, is named
`typeToFind`; type-map order, then declared field order. Modelled from the
spec (§4.2). -/
def findFieldsThatReturnType (schema : Schema) (typeToFind : String) : List FieldDef :=
  schema.types.flatMap fun p =>
    (fieldsOfType p.2).filter (fun f => f.returnType.unwrap == typeToFind)

/-- Resolve a field on a type by name and unwrap its return type name. -/
def resolveFieldReturnType (schema : Schema) (typeName fieldName : String) : Option String :=
  match lookupType schema typeName with
  | some t => ((fieldsOfType t).find? (fun f => f.name == fieldName)).map (fun f => f.returnType.unwrap)
  | none => none

mutual

/-- `selectionIncludesField`, one selection: succeeds when the current
selection-set type is the target type and the selection names the target
field; otherwise, if the selection carries a nested set, recurses with the
selected field's unwrapped return type as the new selection-set type.
Modelled from the spec (§4.1, the reading forced by §8 P1 and Scenario C);
matching is by declared return type name only, never polymorphically. -/
def selectionIncludesField (schema : Schema) (typeToFind fieldToFind : String) :
    Selection → String → Bool
  | .field selName subs, selectionSetType =>
    if selName == fieldToFind && selectionSetType == typeToFind then true
    else
      match subs with
      | [] => false
      | s :: rest =>
        match resolveFieldReturnType schema selectionSetType selName with
        | some ret => selectionIncludesFieldList schema typeToFind fieldToFind (s :: rest) ret
        | none => false

/-- `selectionIncludesField` over a whole selection list. -/
def selectionIncludesFieldList (schema : Schema) (typeToFind fieldToFind : String) :
    List Selection → String → Bool
  | [], _ => false
  | s :: rest, t =>
    selectionIncludesField schema typeToFind fieldToFind s t ||
      selectionIncludesFieldList schema typeToFind fieldToFind rest t

end

/-- A validation error: code, message, and the AST nodes it is attached to. -/
structure ValidationError where
  code : String
  message : String
  nodes : List DirectiveApp
deriving DecidableEq, Repr

/-- Modelled from the spec: the error-message prefix identifying the owning
service, the type name and the field name (§7: each error carries
service/type/field context). -/
def logServiceAndType (serviceName typeName fieldName : String) : String :=
  "[" ++ serviceName ++ "] " ++ typeName ++ "." ++ fieldName ++ " -> "

def errorWithCode (code message : String) (nodes : List DirectiveApp) : ValidationError :=
  { code := code, message := message, nodes := nodes }

/-! ## The `externalUnused` validator

Transcribed from
`src/composition/validate/postComposition/externalUnused.ts`.  The five
`continue` conditions of the innermost loop become five named boolean
definitions; the loop body becomes `checkExternalField`, the per-type body
becomes `checkType`, and the validator flat-maps `checkType` over the type
map. -/

/-- Condition 1 (`hasMatchingKeyOnType`): some `@key` on the parent type's AST
node selects the external field at the top level.  The source also passes the
parent type itself (`namedType`) to `hasMatchingFieldInDirectives`, which uses
it only as parsing context. -/
def usedByKeyOnType (parentType : ObjectData) (externalFieldName : String) : Bool :=
  hasMatchingFieldInDirectives
    (findDirectivesOnNode (typeAstDirectives parentType.astNode) "key") externalFieldName

/-- Condition 2 (`hasMatchingProvidesOnAnotherType`): some field anywhere in
the schema returning the parent type carries a `@provides` whose field set
selects the external field at the top level. -/
def usedByProvides (schema : Schema) (parentTypeName externalFieldName : String) : Bool :=
  (findFieldsThatReturnType schema parentTypeName).any fun field =>
    (findDirectivesOnNode (fieldAstDirectives field.astNode) "provides").any fun d =>
      match firstArgFieldSet d with
      | some sels => sels.any fun s => match s with | .field n _ => n == externalFieldName
      | none => false

/-- Condition 3 (`hasMatchingRequiresOnAnotherType`): some field of some
Object type carries a `@requires` whose field set reaches, through nested
selections, a selection of the external field on the parent type. -/
def usedByRequiresElsewhere (schema : Schema) (parentTypeName externalFieldName : String) : Bool :=
  schema.types.any fun p =>
    match p.2 with
    | .object d =>
      d.fields.any fun field =>
        (findDirectivesOnNode (fieldAstDirectives field.astNode) "requires").any fun dir =>
          match firstArgFieldSet dir with
          | some sels => selectionIncludesFieldList schema parentTypeName externalFieldName sels p.1
          | none => false
    | _ => false

/-- Condition 4 (`hasMatchingRequiresOnType`): some field of the parent type,
owned by the same service as the external declaration, carries a `@requires`
selecting the external field at the top level. -/
def usedByRequiresOnType (parentType : ObjectData) (serviceName externalFieldName : String) : Bool :=
  parentType.fields.any fun maybeRequiresField =>
    if (match maybeRequiresField.federation with
        | some m => m.serviceName
        | none => none) != some serviceName then false
    else
      hasMatchingFieldInDirectives
        (findDirectivesOnNode (fieldAstDirectives maybeRequiresField.astNode) "requires")
        externalFieldName

/-- Condition 5: the parent type implements an interface that declares a field
with the external field's name.  Interfaces are resolved by name through the
type map (the arena of §9); a name that does not resolve to an Interface type
contributes no field names. -/
def usedByImplementedInterface (schema : Schema) (parentType : ObjectData)
    (externalFieldName : String) : Bool :=
  (parentType.interfaces.flatMap fun iname =>
    match lookupType schema iname with
    | some (.interface d) => d.fields.map (fun f => f.name)
    | _ => []).contains externalFieldName

/-- The EXTERNAL_UNUSED error the validator emits for one external field. -/
def mkExternalUnusedError (serviceName parentTypeName : String) (extRef : ExternalFieldRef) :
    ValidationError :=
  errorWithCode "EXTERNAL_UNUSED"
    (logServiceAndType serviceName parentTypeName extRef.field.name ++
      "is marked as @external but is not used by a @requires, @key, or @provides directive.")
    (findDirectivesOnNode extRef.field.directives "external")

/-- The body of the innermost loop of `externalUnused`: check one external
field declared by `serviceName`, with each condition short-circuiting the
rest (`continue` in the source). -/
def checkExternalField (schema : Schema) (parentTypeName : String) (parentType : ObjectData)
    (serviceName : String) (extRef : ExternalFieldRef) : List ValidationError :=
  let externalFieldName := extRef.field.name
  if usedByKeyOnType parentType externalFieldName then [] else
  if usedByProvides schema parentTypeName externalFieldName then [] else
  if usedByRequiresElsewhere schema parentTypeName externalFieldName then [] else
  if usedByRequiresOnType parentType serviceName externalFieldName then [] else
  if usedByImplementedInterface schema parentType externalFieldName then [] else
  [mkExternalUnusedError serviceName parentTypeName extRef]

/-- The escape at the top of the per-type loop:
`if (serviceName && keys && !keys[serviceName]) continue`. -/
def skipsType (meta : TypeFedMeta) : Bool :=
  match meta.serviceName, meta.keys with
  | some s, some ks => s != "" && (assocFind ks s).isNone
  | _, _ => false

/-- The per-type body of `externalUnused`: only Object types are examined;
a type whose declared owning service has no key entry for itself is skipped;
otherwise every external field of every declaring service is checked. -/
def checkType (schema : Schema) (parentTypeName : String) : NamedType → List ValidationError
  | .object pt =>
    match pt.federation with
    | some meta =>
      if skipsType meta then []
      else
        match meta.externals with
        | some exts =>
          exts.flatMap fun p => p.2.flatMap (checkExternalField schema parentTypeName pt p.1)
        | none => []
    | none => []
  | _ => []

/-- The `externalUnused` post-composition validator. -/
def externalUnused (schema : Schema) : List ValidationError :=
  schema.types.flatMap fun p => checkType schema p.1 p.2

/-! ## Concrete schemas used by witnesses -/

/-- A `@key` directive application with the given (parsed) field set. -/
def keyDir (sels : List Selection) : DirectiveApp := ⟨"key", some [ArgValue.str sels]⟩

/-- An `@external` directive application. -/
def extDir : DirectiveApp := ⟨"external", none⟩

/-- Metadata of the witness entity `User`: owned by service `A` with a
self-key on `id`; service `B` declares `name` as external, and nothing uses
`name`. -/
def wMeta : TypeFedMeta :=
  { serviceName := some "A"
  , keys := some [("A", [[Selection.field "id" []]])]
  , externals := some [("B", [⟨⟨"name", [extDir]⟩⟩])] }

/-- The external declaration of `User.name` by service `B`. -/
def wNameRef : ExternalFieldRef := ⟨⟨"name", [extDir]⟩⟩

/-- The witness entity `User`. -/
def wUserObj : ObjectData :=
  { fields := [⟨"id", .nonNull (.named "ID"), some ⟨"id", []⟩, some ⟨some "A"⟩⟩,
               ⟨"name", .named "String", some ⟨"name", []⟩, some ⟨some "A"⟩⟩]
  , interfaces := []
  , astNode := some ⟨[keyDir [Selection.field "id" []]]⟩
  , federation := some wMeta }

/-- A one-entity schema on which `externalUnused` reports `User.name`. -/
def wSchema : Schema := ⟨[("User", NamedType.object wUserObj)]⟩

/-- Metadata with an owning service that has no self key: only `B` has keys.
The external field `sku` of `B` is used by nothing, yet the type is skipped. -/
def c4Meta : TypeFedMeta :=
  { serviceName := some "A"
  , keys := some [("B", [[Selection.field "sku" []]])]
  , externals := some [("B", [⟨⟨"sku", [extDir]⟩⟩])] }

/-- An entity whose declared owner `A` has no key entry for itself. -/
def c4Obj : ObjectData :=
  { fields := [⟨"sku", .named "String", some ⟨"sku", []⟩, some ⟨some "A"⟩⟩]
  , interfaces := []
  , astNode := some ⟨[keyDir [Selection.field "sku" []]]⟩
  , federation := some c4Meta }

/-- Schema for the C4 witness. -/
def c4Schema : Schema := ⟨[("Item", NamedType.object c4Obj)]⟩

/-- The interface `Vehicle`, declaring `id` and `speed`. -/
def c5Vehicle : ObjectData :=
  { fields := [⟨"id", .nonNull (.named "ID"), some ⟨"id", []⟩, none⟩,
               ⟨"speed", .named "Int", some ⟨"speed", []⟩, none⟩]
  , interfaces := []
  , astNode := some ⟨[]⟩
  , federation := none }

/-- The entity `Car implements Vehicle`: service `B` declares `speed` external;
no key, `@provides` or `@requires` anywhere mentions `speed`. -/
def c5Car : ObjectData :=
  { fields := [⟨"id", .nonNull (.named "ID"), some ⟨"id", []⟩, some ⟨some "A"⟩⟩,
               ⟨"speed", .named "Int", some ⟨"speed", []⟩, some ⟨some "A"⟩⟩]
  , interfaces := ["Vehicle"]
  , astNode := some ⟨[keyDir [Selection.field "id" []]]⟩
  , federation := some { serviceName := some "A"
                       , keys := some [("A", [[Selection.field "id" []]])]
                       , externals := some [("B", [⟨⟨"speed", [extDir]⟩⟩])] } }

/-- Schema for the C5 witness. -/
def c5Schema : Schema :=
  ⟨[("Car", NamedType.object c5Car), ("Vehicle", NamedType.interface c5Vehicle)]⟩

/-- An Interface type that carries externals metadata (C9 witness): were the
validator to examine non-Object kinds, this would report `ifaceField`. -/
def c9Iface : ObjectData :=
  { fields := [⟨"ifaceField", .named "String", some ⟨"ifaceField", []⟩, some ⟨some "A"⟩⟩]
  , interfaces := []
  , astNode := some ⟨[]⟩
  , federation := some { serviceName := some "A"
                       , keys := some [("A", [[Selection.field "ifaceField" []]])]
                       , externals := some [("B", [⟨⟨"ifaceField", [extDir]⟩⟩])] } }

/-! ## Theorems about the validator -/

/-- C1: for an entity Object type that is not skipped, for an external field
declared by a service on it, the inner loop of `externalUnused` emits an
`EXTERNAL_UNUSED` error if and only if none of the five used-conditions holds
— key match on the type, `@provides` top-level match on a field returning the
type, reachable `@requires` match anywhere, same-service `@requires` top-level
match on the type, or a field of the same name on an implemented interface —
the conditions being checked in this order with the first match
short-circuiting the rest; the error (see `mkExternalUnusedError`) carries
code `EXTERNAL_UNUSED`, names the owning service, type and field, and is
attached to the external field's `@external` directive nodes; and everything
the inner loop emits appears in the validator's output. -/
theorem checkExternalField_emits_iff_unused
    (schema : Schema) (parentTypeName : String) (parentType : ObjectData) (meta : TypeFedMeta)
    (serviceName : String) (refs : List ExternalFieldRef) (extRef : ExternalFieldRef)
    (hmem : (parentTypeName, NamedType.object parentType) ∈ schema.types)
    (hmeta : parentType.federation = some meta)
    (hskip : skipsType meta = false)
    (hexts : (serviceName, refs) ∈ meta.externals.getD [])
    (href : extRef ∈ refs) :
    checkExternalField schema parentTypeName parentType serviceName extRef =
      (if usedByKeyOnType parentType extRef.field.name
          || usedByProvides schema parentTypeName extRef.field.name
          || usedByRequiresElsewhere schema parentTypeName extRef.field.name
          || usedByRequiresOnType parentType serviceName extRef.field.name
          || usedByImplementedInterface schema parentType extRef.field.name
       then []
       else [mkExternalUnusedError serviceName parentTypeName extRef]) ∧
    ∀ e ∈ checkExternalField schema parentTypeName parentType serviceName extRef,
      e ∈ externalUnused schema := by
  constructor
  · unfold checkExternalField
    cases h1 : usedByKeyOnType parentType extRef.field.name <;>
      cases h2 : usedByProvides schema parentTypeName extRef.field.name <;>
        cases h3 : usedByRequiresElsewhere schema parentTypeName extRef.field.name <;>
          cases h4 : usedByRequiresOnType parentType serviceName extRef.field.name <;>
            cases h5 : usedByImplementedInterface schema parentType extRef.field.name <;>
              simp [h1, h2, h3, h4, h5]
  · intro e he
    unfold externalUnused
    rw [List.mem_flatMap]
    refine ⟨(parentTypeName, NamedType.object parentType), hmem, ?_⟩
    show e ∈ checkType schema parentTypeName (NamedType.object parentType)
    simp only [checkType]
    rw [hmeta]
    cases hext : meta.externals with
    | none =>
      rw [hext] at hexts
      simp at hexts
    | some exts =>
      rw [hext] at hexts
      simp only [Option.getD_some] at hexts
      simp only [hskip, Bool.false_eq_true, if_false, hext]
      rw [List.mem_flatMap]
      exact ⟨(serviceName, refs), hexts, List.mem_flatMap.mpr ⟨extRef, href, he⟩⟩

/-- C1 witness: on `wSchema`, `User.name` declared external by service `B`
satisfies no used-condition, so the inner loop emits exactly the
`EXTERNAL_UNUSED` error and the validator reports it. -/
theorem checkExternalField_emits_iff_unused_witness :
    (("User", NamedType.object wUserObj) ∈ wSchema.types ∧
      wUserObj.federation = some wMeta ∧ skipsType wMeta = false ∧
      ("B", [wNameRef]) ∈ wMeta.externals.getD [] ∧ wNameRef ∈ [wNameRef]) ∧
    checkExternalField wSchema "User" wUserObj "B" wNameRef =
      [mkExternalUnusedError "B" "User" wNameRef] ∧
    mkExternalUnusedError "B" "User" wNameRef ∈ externalUnused wSchema := by
  have hc := checkExternalField_emits_iff_unused wSchema "User" wUserObj wMeta "B"
    [wNameRef] wNameRef (by decide) (by decide) (by decide) (by decide) (by decide)
  refine ⟨⟨by decide, by decide, by decide, by decide, by decide⟩, ?_, ?_⟩
  · rw [hc.1]; decide
  · exact hc.2 _ (by decide)

/-- C4: an Object type whose metadata declares an owning service that has no
key entry for itself is skipped entirely: the per-type body of the validator
contributes no error, whatever externals the type carries. -/
theorem checkType_skips_unkeyed_owner
    (schema : Schema) (parentTypeName : String) (pt : ObjectData) (meta : TypeFedMeta)
    (s : String) (ks : List (String × List (List Selection)))
    (hmeta : pt.federation = some meta)
    (hsvc : meta.serviceName = some s) (hs : s ≠ "")
    (hkeys : meta.keys = some ks) (hnone : assocFind ks s = none) :
    checkType schema parentTypeName (NamedType.object pt) = [] := by
  have hskip : skipsType meta = true := by
    unfold skipsType
    rw [hsvc, hkeys]
    simp [hnone, bne_iff_ne, hs]
  simp only [checkType]
  rw [hmeta]
  simp [hskip]

/-- C4 witness: on `c4Schema` the entity `Item` is owned by `A`, only `B` has
a key entry, and `B` declares the otherwise unused external `sku`; the type is
skipped and the whole validator is silent. -/
theorem checkType_skips_unkeyed_owner_witness :
    (c4Obj.federation = some c4Meta ∧ c4Meta.serviceName = some "A" ∧ ("A" : String) ≠ "" ∧
      c4Meta.keys = some [("B", [[Selection.field "sku" []]])] ∧
      assocFind [("B", [[Selection.field "sku" []]])] "A" = none) ∧
    checkType c4Schema "Item" (NamedType.object c4Obj) = [] ∧
    externalUnused c4Schema = [] := by
  refine ⟨⟨by decide, by decide, by decide, by decide, by decide⟩, ?_, by decide⟩
  exact checkType_skips_unkeyed_owner c4Schema "Item" c4Obj c4Meta "A"
    [("B", [[Selection.field "sku" []]])]
    (by decide) (by decide) (by decide) (by decide) (by decide)

/-- C5: an external field on an entity Object type whose name is declared by
an implemented interface never produces an error from the inner loop — in
particular even when no `@key`, `@provides` or `@requires` anywhere mentions
it, since the interface condition needs none of them. -/
theorem checkExternalField_interface_escape
    (schema : Schema) (parentTypeName : String) (parentType : ObjectData)
    (serviceName : String) (extRef : ExternalFieldRef)
    (h5 : usedByImplementedInterface schema parentType extRef.field.name = true) :
    checkExternalField schema parentTypeName parentType serviceName extRef = [] := by
  unfold checkExternalField
  simp [h5, ite_self]

/-- C5 witness: in `c5Schema`, `Car.speed` is external from service `B`, zero
keys/provides/requires mention it, yet `Vehicle` declares `speed`, so no error
is emitted — neither by the inner loop nor by the whole validator. -/
theorem checkExternalField_interface_escape_witness :
    usedByImplementedInterface c5Schema c5Car "speed" = true ∧
    checkExternalField c5Schema "Car" c5Car "B" ⟨⟨"speed", [extDir]⟩⟩ = [] ∧
    externalUnused c5Schema = [] := by
  refine ⟨by decide, ?_, by decide⟩
  exact checkExternalField_interface_escape c5Schema "Car" c5Car "B" _ (by decide)

/-- C9: the validator only examines Object types.  Its output is the
concatenation of the per-type contributions, and the contribution of a type
of any non-Object kind — in particular an Interface type, even one carrying
externals metadata — is empty, for every schema. -/
theorem externalUnused_only_object_types :
    (∀ schema : Schema, externalUnused schema =
      schema.types.flatMap fun p => checkType schema p.1 p.2) ∧
    ∀ (schema : Schema) (parentTypeName : String),
      (∀ d : ObjectData, checkType schema parentTypeName (NamedType.interface d) = []) ∧
      checkType schema parentTypeName NamedType.scalar = [] ∧
      checkType schema parentTypeName NamedType.union = [] ∧
      checkType schema parentTypeName NamedType.enum = [] ∧
      checkType schema parentTypeName NamedType.inputObject = [] :=
  ⟨fun _ => rfl, fun _ _ => ⟨fun _ => rfl, rfl, rfl, rfl, rfl⟩⟩

/-! ## Data model of the schema, as seen by the serializer

Transcribed from `src/service/printComposedSdl.ts`.  The printer reads a
richer view of the schema than the validator does, so it gets its own record
types (prefixed with `P`). -/

/-- The serializer options: `commentDescriptions` selects the legacy
line-comment form for descriptions. -/
structure Options where
  commentDescriptions : Option Bool
deriving DecidableEq, Repr

/-- `options?.commentDescriptions === true`. -/
def commentDescriptionsOn (opts : Option Options) : Bool :=
  match opts with
  | some o => o.commentDescriptions == some true
  | none => false

/-- A service definition: name and URL (the printer reads nothing else). -/
structure ServiceDef where
  name : String
  url : String
deriving DecidableEq, Repr

/-- An argument or input field.  A present default value is carried as the
text `print(astFromValue(...))` would render, those two graphql-js helpers
being outside the sources under verification; an absent default renders
nothing, matching `astFromValue` returning no AST for it. -/
structure ArgDef where
  name : String
  description : Option String
  type : TypeRef
  defaultValue : Option String
deriving DecidableEq, Repr

/-- An enum value. -/
structure EnumValueDef where
  name : String
  description : Option String
  isDeprecated : Bool
  deprecationReason : Option String
deriving DecidableEq, Repr

/-- `FederationField`, as the printer reads it.  The source destructures with
defaults `requires = [], provides = []`, so an absent selection list and an
empty one are the same thing and both are the empty list here. -/
structure PFieldFed where
  serviceName : Option String
  requires : List Selection
  provides : List Selection
deriving DecidableEq, Repr

/-- A field of an Object or Interface type, as printed. -/
structure PField where
  name : String
  description : Option String
  args : List ArgDef
  type : TypeRef
  isDeprecated : Bool
  deprecationReason : Option String
  federation : Option PFieldFed
deriving DecidableEq, Repr

/-- `FederationType`, as the printer reads it: owning service and per-service
key selection sets (a service's entry may itself be `undefined`). -/
structure PTypeFed where
  serviceName : Option String
  keys : Option (List (String × Option (List (List Selection))))
deriving DecidableEq, Repr

/-- The base AST declaration node of a type, as far as the printer reads it:
whether it declares fields.  `fields` mirrors the JS property: `none` is
`undefined` (falsy), `some l` is an array (truthy even when empty). -/
structure PTypeAst where
  fields : Option (List String)
deriving DecidableEq, Repr

/-- An Object type as printed.  `extensionASTNodes` mirrors presence of the
JS property: the printer consults only its truthiness, and an array is truthy
even when empty, so presence is all that matters. -/
structure PObj where
  name : String
  description : Option String
  interfaces : List String
  fields : List PField
  astNode : Option PTypeAst
  extensionASTNodes : Option Unit
  federation : Option PTypeFed
deriving DecidableEq, Repr

/-- An Interface type as printed. -/
structure PIface where
  name : String
  description : Option String
  fields : List PField
  astNode : Option PTypeAst
  extensionASTNodes : Option Unit
  federation : Option PTypeFed
deriving DecidableEq, Repr

/-- A Scalar type as printed. -/
structure PScalar where
  name : String
  description : Option String
deriving DecidableEq, Repr

/-- A Union type as printed (member type names). -/
structure PUnion where
  name : String
  description : Option String
  types : List String
deriving DecidableEq, Repr

/-- An Enum type as printed. -/
structure PEnum where
  name : String
  description : Option String
  values : List EnumValueDef
deriving DecidableEq, Repr

/-- An InputObject type as printed. -/
structure PInputObject where
  name : String
  description : Option String
  fields : List ArgDef
deriving DecidableEq, Repr

/-- A named type, for the serializer. -/
inductive PType where
  | scalar (t : PScalar)
  | object (t : PObj)
  | interface (t : PIface)
  | union (t : PUnion)
  | enum (t : PEnum)
  | inputObject (t : PInputObject)
deriving DecidableEq, Repr

/-- The name of a type. -/
def PType.name : PType → String
  | .scalar t => t.name
  | .object t => t.name
  | .interface t => t.name
  | .union t => t.name
  | .enum t => t.name
  | .inputObject t => t.name

/-- A directive definition. -/
structure PDirective where
  name : String
  description : Option String
  args : List ArgDef
  isRepeatable : Bool
  locations : List String
deriving DecidableEq, Repr

/-- The composed schema as the serializer reads it: root operation type
names, directive definitions in declaration order, and the type map in
insertion order. -/
structure PSchema where
  queryType : Option String
  mutationType : Option String
  subscriptionType : Option String
  directives : List PDirective
  typeMap : List PType
deriving DecidableEq, Repr

/-! ## Serializer state

In the source the fragment cache and the fragment counter are stored on the
schema's type objects (`type.fragments ??= new Map`, `type.nextFragmentId ??=
0`) and the key counter is a module-scoped `let nextKeyId = 0`.  None of that
state is created or discarded by a call: it lives in the JS process, keyed by
the (identity of the) type objects.  The embedding makes it explicit as a
`PrinterState` threaded through every function, keyed by type name (type
names are unique in a schema); `initPrinterState` is the state of a fresh
process, and the state one call returns is the state the next call in the
same process, on the same schema objects, observes. -/

/-- One synthesized fragment: its name and its full text. -/
structure FragEntry where
  id : String
  text : String
deriving DecidableEq, Repr

/-- Per-type fragment bookkeeping (the `fragments` map, in insertion order,
and `nextFragmentId`, both `none` until first initialized by `??=`). -/
structure TypeFragState where
  fragments : Option (List (String × FragEntry))
  nextFragmentId : Option Nat
deriving DecidableEq, Repr

/-- The process-wide mutable state of the serializer module. -/
structure PrinterState where
  nextKeyId : Nat
  typeFrags : List (String × TypeFragState)
deriving DecidableEq, Repr

/-- The state of a fresh JS process: counter at 0, no type touched yet. -/
def initPrinterState : PrinterState := ⟨0, []⟩

/-- `Map.set` / property write on an association list: replace the value in
place when the key exists, append otherwise (JS `Map` iterates in insertion
order). -/
def assocSet {α : Type} : List (String × α) → String → α → List (String × α)
  | [], k, v => [(k, v)]
  | (k1, v1) :: rest, k, v =>
    if k1 == k then (k, v) :: rest else (k1, v1) :: assocSet rest k v

/-! ## Pure printing helpers -/

/-- JS string quoting, as `print` of a string AST node or `JSON.stringify`
would render it; escape sequences are not modelled (the concrete inputs of
this development contain none). -/
def jsQuote (s : String) : String := "\"" ++ s ++ "\""

/-- `${x}` of an optional string: `undefined` renders as the word. -/
def undefinedStr (o : Option String) : String :=
  match o with
  | some s => s
  | none => "undefined"

mutual

/-- `printWithReducedWhitespace ∘ print` of one selection node: all runs of
whitespace of the graphql-js printout collapse to single spaces, so a field
with a nested set renders as `name \x7b sub1 sub2 \x7d`. -/
def printSelectionR : Selection → String
  | .field n subs =>
    match subs with
    | [] => n
    | s :: rest => n ++ " \x7b " ++ printSelectionListR (s :: rest) ++ " \x7d"

/-- The selections of a nested set, space-separated. -/
def printSelectionListR : List Selection → String
  | [] => ""
  | [s] => printSelectionR s
  | s :: rest => printSelectionR s ++ " " ++ printSelectionListR rest

end

/-- `printFieldSet`: the selections, space-joined, in braces. -/
def printFieldSet (selections : List Selection) : String :=
  "\x7b " ++ String.intercalate " " (selections.map printSelectionR) ++ " \x7d"

/-- Characters the first replacement of `asValidIdentifier` collapses:
whitespace, commas and braces. -/
def isSepChar (c : Char) : Bool :=
  c == ' ' || c == '\t' || c == '\n' || c == '\r' || c == ',' || c == '\x7b' || c == '\x7d'

/-- First replacement: each run of separator characters becomes one `_`. -/
def collapseSeps : List Char → List Char
  | [] => []
  | [c] => if isSepChar c then ['_'] else [c]
  | c :: d :: rest =>
    if isSepChar c && isSepChar d then collapseSeps (d :: rest)
    else (if isSepChar c then '_' else c) :: collapseSeps (d :: rest)

/-- Second replacement: each run of underscores becomes one `_`. -/
def collapseUnderscores : List Char → List Char
  | [] => []
  | [c] => [c]
  | c :: d :: rest =>
    if c == '_' && d == '_' then collapseUnderscores (d :: rest)
    else c :: collapseUnderscores (d :: rest)

/-- Third replacement: drop everything outside `[A-Za-z_0-9]`. -/
def isIdentChar (c : Char) : Bool :=
  (c ≥ 'A' && c ≤ 'Z') || (c ≥ 'a' && c ≤ 'z') || (c ≥ '0' && c ≤ '9') || c == '_'

/-- JS `String.prototype.trim`: drop leading and trailing whitespace. -/
def jsTrimChars (l : List Char) : List Char :=
  ((l.dropWhile Char.isWhitespace).reverse.dropWhile Char.isWhitespace).reverse

/-- `asValidIdentifier`: trim, collapse separator runs to `_`, collapse `_`
runs, drop invalid characters. -/
def asValidIdentifier (input : String) : String :=
  String.mk ((collapseUnderscores (collapseSeps (jsTrimChars input.data))).filter isIdentChar)

/-- `printBlockString` (the triple-quoted block form). -/
def printBlockString (value : String) (indentation : String) (preferMultipleLines : Bool) : String :=
  let isSingleLine := !(value.contains '\n')
  let hasLeadingSpace := value.startsWith " " || value.startsWith "\t"
  let hasTrailingQuote := value.endsWith "\""
  let hasTrailingSlash := value.endsWith "\\"
  let printAsMultipleLines :=
    !isSingleLine || hasTrailingQuote || hasTrailingSlash || preferMultipleLines
  let result1 := if printAsMultipleLines && !(isSingleLine && hasLeadingSpace)
    then "\n" ++ indentation else ""
  let result2 := result1 ++
    (if indentation != "" then value.replace "\n" ("\n" ++ indentation) else value)
  let result3 := if printAsMultipleLines then result2 ++ "\n" else result2
  "\"\"\"" ++ result3.replace "\"\"\"" "\\\"\"\"" ++ "\"\"\""

/-- `printDescriptionWithComments` (the legacy `#`-comment form). -/
def printDescriptionWithComments (description indentation : String) (firstInBlock : Bool) : String :=
  let pfx := if indentation != "" && !firstInBlock then "\n" else ""
  let comment := String.intercalate "\n"
    ((description.splitOn "\n").map fun line =>
      indentation ++ (if line != "" then "# " ++ line else "#"))
  pfx ++ comment ++ "\n"

/-- `printDescription`. -/
def printDescription (opts : Option Options) (description : Option String)
    (indentation : String) (firstInBlock : Bool) : String :=
  match description with
  | none => ""
  | some d =>
    if commentDescriptionsOn opts then
      printDescriptionWithComments d indentation firstInBlock
    else
      let preferMultipleLines := d.length > 70
      let blockString := printBlockString d "" preferMultipleLines
      let pfx := if indentation != "" && !firstInBlock then "\n" ++ indentation else indentation
      pfx ++ blockString.replace "\n" ("\n" ++ indentation) ++ "\n"

/-- `printDeprecated`.  An absent reason produces no reason AST, hence the
bare form; `DEFAULT_DEPRECATION_REASON` is the graphql-js constant. -/
def printDeprecated (isDeprecated : Bool) (reason : Option String) : String :=
  if !isDeprecated then ""
  else
    match reason with
    | some r =>
      if r != "No longer supported" then " @deprecated(reason: " ++ jsQuote r ++ ")"
      else " @deprecated"
    | none => " @deprecated"

/-- `printInputValue`. -/
def printInputValue (arg : ArgDef) : String :=
  let argDecl := arg.name ++ ": " ++ arg.type.render
  match arg.defaultValue with
  | some v => argDecl ++ " = " ++ v
  | none => argDecl

/-- `printArgs`: one line when no argument has a (truthy) description. -/
def printArgs (opts : Option Options) (args : List ArgDef) (indentation : String) : String :=
  if args.isEmpty then ""
  else if args.all (fun a => !(jsStrTruthy a.description)) then
    "(" ++ String.intercalate ", " (args.map printInputValue) ++ ")"
  else
    "(\n" ++
      String.intercalate "\n"
        (args.enum.map fun p =>
          printDescription opts p.2.description ("  " ++ indentation) (p.1 == 0) ++
            "  " ++ indentation ++ printInputValue p.2) ++
      "\n" ++ indentation ++ ")"

/-- `printDirective`. -/
def printDirective (d : PDirective) (opts : Option Options) : String :=
  printDescription opts d.description "" true ++
    "directive @" ++ d.name ++ printArgs opts d.args "" ++
    (if d.isRepeatable then " repeatable" else "") ++
    " on " ++ String.intercalate " | " d.locations

/-- `printBlock`: `onNewLine` puts the opening brace on its own line (used
for entities). -/
def printBlock (items : List String) (onNewLine : Bool) : String :=
  if items.length != 0 then
    if onNewLine then "\n\x7b\n" ++ String.intercalate "\n" items ++ "\n\x7d"
    else " \x7b\n" ++ String.intercalate "\n" items ++ "\n\x7d"
  else ""

/-! ## Stateful printing (fragments, keys, fields, types) -/

/-- A type object before its bookkeeping properties are first assigned. -/
def emptyTypeFragState : TypeFragState := ⟨none, none⟩

/-- `findOrCreateFragment`, transcribed exactly: the lookup is by `key` (the
printed field-set text) but the store is by `id` (the fragment name), and the
per-type `nextFragmentId` is post-incremented into the name. -/
def findOrCreateFragment (tname : String) (selections : List Selection) (st : PrinterState) :
    String × PrinterState :=
  let ts := (assocFind st.typeFrags tname).getD emptyTypeFragState
  let frags := ts.fragments.getD []
  let nextId := ts.nextFragmentId.getD 0
  let key := printFieldSet selections
  match assocFind frags key with
  | some existing =>
    (existing.id, { st with typeFrags := assocSet st.typeFrags tname ⟨some frags, some nextId⟩ })
  | none =>
    let id := "cs__fragmentOn_" ++ asValidIdentifier (tname ++ "_" ++ key ++ "_" ++ toString nextId)
    let entry : FragEntry :=
      ⟨id, "fragment " ++ id ++ " on " ++ tname ++ " " ++ printFieldSet selections⟩
    (id, { st with
            typeFrags := assocSet st.typeFrags tname ⟨some (assocSet frags id entry), some (nextId + 1)⟩ })

/-- `printFragmentsForType`: every cached fragment of the type, each on a new
line; `.join()` without a separator joins with commas. -/
def printFragmentsForType (tname : String) (st : PrinterState) : String :=
  let frags := match assocFind st.typeFrags tname with
    | some ts => ts.fragments.getD []
    | none => []
  String.intercalate "," (frags.map fun p => "\n" ++ p.2.text)

/-- `printFederationFieldDirectives`: the `@cs__resolve` directive of one
field.  A field without federation metadata falls back to destructuring the
type's metadata unconditionally — a TypeScript `TypeError` when that is also
absent, modelled as `Except.error`. -/
def printFederationFieldDirectives (tname : String) (typeFederation : Option PTypeFed)
    (f : PField) (st : PrinterState) : Except String (String × PrinterState) :=
  match f.federation with
  | none =>
    match typeFederation with
    | none =>
      Except.error "TypeError: cannot destructure serviceName of undefined federation metadata"
    | some m => Except.ok (" @cs__resolve(graph: " ++ undefinedStr m.serviceName ++ ")", st)
  | some ff =>
    let reqPair :=
      if ff.requires.length != 0 then
        let r := findOrCreateFragment tname ff.requires st
        (", requires: " ++ jsQuote r.1, r.2)
      else ("", st)
    let provPair :=
      if ff.provides.length != 0 then
        let r := findOrCreateFragment tname ff.provides reqPair.2
        (", provides: " ++ jsQuote r.1, r.2)
      else ("", reqPair.2)
    Except.ok (" @cs__resolve(graph: " ++ undefinedStr ff.serviceName ++
      reqPair.1 ++ provPair.1 ++ ")", provPair.2)

/-- What `printFields` and `printFederationFieldDirectives` read of a type:
name, fields and federation metadata (shared by Object and Interface). -/
structure TypeView where
  name : String
  fields : List PField
  federation : Option PTypeFed
deriving DecidableEq, Repr

/-- The field lines of a type, in declaration order, threading the fragment
state left to right as the JS `map` over fields does. -/
def printFieldStrings (opts : Option Options) (tv : TypeView) :
    List (Nat × PField) → PrinterState → Except String (List String × PrinterState)
  | [], st => Except.ok ([], st)
  | (i, f) :: rest, st =>
    match printFederationFieldDirectives tv.name tv.federation f st with
    | Except.error e => Except.error e
    | Except.ok (dirStr, st1) =>
      match printFieldStrings opts tv rest st1 with
      | Except.error e => Except.error e
      | Except.ok (strs, st2) =>
        Except.ok ((printDescription opts f.description "  " (i == 0) ++ "  " ++ f.name ++
          printArgs opts f.args "  " ++ ": " ++ f.type.render ++
          printDeprecated f.isDeprecated f.deprecationReason ++ dirStr) :: strs, st2)

/-- `printFields`: the field block; for an entity (truthy `keys`) the block
opens on a new line. -/
def printFields (opts : Option Options) (tv : TypeView) (st : PrinterState) :
    Except String (String × PrinterState) :=
  match printFieldStrings opts tv tv.fields.enum st with
  | Except.error e => Except.error e
  | Except.ok (strs, st1) =>
    let isEntity := match tv.federation with
      | some m => m.keys.isSome
      | none => false
    Except.ok (printBlock strs isEntity, st1)

/-- The key fragments one service contributes, with the running module
counter `nextKeyId`. -/
def printKeyFragmentsForService (tname service : String) :
    List (List Selection) → Nat → String × Nat
  | [], n => ("", n)
  | sels :: rest, n =>
    let s := "\nfragment cs__keyFor_" ++ tname ++ "_" ++ toString n ++ " on " ++ tname ++
      " @cs__key(graph: " ++ service ++ ") " ++ printFieldSet sels
    let r := printKeyFragmentsForService tname service rest (n + 1)
    (s ++ r.1, r.2)

/-- All key entries of a type; a service whose key list is `undefined`
contributes nothing to the `join('')`. -/
def printKeyEntries (tname : String) :
    List (String × Option (List (List Selection))) → Nat → String × Nat
  | [], n => ("", n)
  | (service, ksels) :: rest, n =>
    let cur := match ksels with
      | some ks => printKeyFragmentsForService tname service ks n
      | none => ("", n)
    let r := printKeyEntries tname rest cur.2
    (cur.1 ++ r.1, r.2)

/-- `printKeys`: the synthesized key fragments of an entity type, named from
the module-scoped `nextKeyId` counter, which is read from and written back to
the process state — the source never resets it. -/
def printKeys (o : PObj) (st : PrinterState) : String × PrinterState :=
  match o.federation with
  | none => ("", st)
  | some metadata =>
    if !(jsStrTruthy metadata.serviceName) then ("", st)
    else
      match metadata.keys with
      | none => ("", st)
      | some keys =>
        let r := printKeyEntries o.name keys st.nextKeyId
        (r.1 ++ "\n", { st with nextKeyId := r.2 })

/-- `type.extensionASTNodes && type.astNode && !type.astNode.fields`: the
`extend` test shared by `printObject` and `printInterface`. -/
def jsIsExtension (extensionASTNodes : Option Unit) (astNode : Option PTypeAst) : Bool :=
  extensionASTNodes.isSome &&
    match astNode with
    | some a => a.fields.isNone
    | none => false

/-- The `TypeView` of an Object type. -/
def objTypeView (o : PObj) : TypeView := ⟨o.name, o.fields, o.federation⟩

/-- The `TypeView` of an Interface type. -/
def ifaceTypeView (o : PIface) : TypeView := ⟨o.name, o.fields, o.federation⟩

/-- `printObject`: description, optional `extend`, header with implemented
interfaces, field block, key fragments, then the fragments cached on the type
(the concatenation evaluates left to right, so the fragments created while
printing the fields are visible). -/
def printObject (opts : Option Options) (o : PObj) (st : PrinterState) :
    Except String (String × PrinterState) :=
  let interfacesStr := if o.interfaces.length != 0 then
      " implements " ++ String.intercalate " & " o.interfaces
    else ""
  let isExtension := jsIsExtension o.extensionASTNodes o.astNode
  match printFields opts (objTypeView o) st with
  | Except.error e => Except.error e
  | Except.ok (fieldsStr, st1) =>
    let keysR := printKeys o st1
    Except.ok (printDescription opts o.description "" true ++
      (if isExtension then "extend " else "") ++
      "type " ++ o.name ++ interfacesStr ++ fieldsStr ++ keysR.1 ++
      printFragmentsForType o.name keysR.2, keysR.2)

/-- `printInterface`: like `printObject` but with no interface list and no
key fragments. -/
def printInterface (opts : Option Options) (o : PIface) (st : PrinterState) :
    Except String (String × PrinterState) :=
  let isExtension := jsIsExtension o.extensionASTNodes o.astNode
  match printFields opts (ifaceTypeView o) st with
  | Except.error e => Except.error e
  | Except.ok (fieldsStr, st1) =>
    Except.ok (printDescription opts o.description "" true ++
      (if isExtension then "extend " else "") ++
      "interface " ++ o.name ++ fieldsStr ++ printFragmentsForType o.name st1, st1)

/-- `printScalar`. -/
def printScalar (t : PScalar) (opts : Option Options) : String :=
  printDescription opts t.description "" true ++ "scalar " ++ t.name

/-- `printUnion`. -/
def printUnion (t : PUnion) (opts : Option Options) : String :=
  let possibleTypes := if t.types.length != 0 then
      " = " ++ String.intercalate " | " t.types
    else ""
  printDescription opts t.description "" true ++ "union " ++ t.name ++ possibleTypes

/-- `printEnum`. -/
def printEnum (t : PEnum) (opts : Option Options) : String :=
  let values := t.values.enum.map fun p =>
    printDescription opts p.2.description "  " (p.1 == 0) ++ "  " ++ p.2.name ++
      printDeprecated p.2.isDeprecated p.2.deprecationReason
  printDescription opts t.description "" true ++ "enum " ++ t.name ++ printBlock values false

/-- `printInputObject`. -/
def printInputObject (t : PInputObject) (opts : Option Options) : String :=
  let fields := t.fields.enum.map fun p =>
    printDescription opts p.2.description "  " (p.1 == 0) ++ "  " ++ printInputValue p.2
  printDescription opts t.description "" true ++ "input " ++ t.name ++ printBlock fields false

/-- `printType`: dispatch on the type kind.  The source's trailing
`throw Error('Unexpected type')` is unreachable over this closed sum. -/
def printType (t : PType) (opts : Option Options) (st : PrinterState) :
    Except String (String × PrinterState) :=
  match t with
  | .scalar s => Except.ok (printScalar s opts, st)
  | .object o => printObject opts o st
  | .interface i => printInterface opts i st
  | .union u => Except.ok (printUnion u opts, st)
  | .enum e => Except.ok (printEnum e opts, st)
  | .inputObject inObj => Except.ok (printInputObject inObj opts, st)

/-! ## The document -/

/-- `printSchemaDefinition`: the schema block with the fixed `@using` linking
directive and the root operation types. -/
def printSchemaDefinition (schema : PSchema) : String :=
  let operationTypes :=
    (match schema.queryType with
     | some q => ["  query: " ++ q]
     | none => []) ++
    (match schema.mutationType with
     | some m => ["  mutation: " ++ m]
     | none => []) ++
    (match schema.subscriptionType with
     | some s => ["  subscription: " ++ s]
     | none => [])
  "schema @using(spec: " ++ jsQuote "https://specs.apollo.dev/cs/v0.1" ++ ")" ++
    "\n\x7b\n" ++ String.intercalate "\n" operationTypes ++ "\n\x7d"

/-- `printGraphs`: the `cs__Graph` enum, one value per service with its
`@cs__link` URL.  The source interpolates the mapped array into a template
literal, which joins its elements with commas. -/
def printGraphs (serviceList : List ServiceDef) : String :=
  "enum cs__Graph \x7b" ++
    String.intercalate ","
      (serviceList.map fun service =>
        "\n  " ++ service.name ++ " @cs__link(to: \x7b http: \x7b url: " ++
          jsQuote service.url ++ " \x7d \x7d)") ++
    "\n\x7d"

/-- The GraphQL built-in directives (graphql-js `isSpecifiedDirective`). -/
def specifiedDirectiveNames : List String := ["include", "skip", "deprecated", "specifiedBy"]

/-- Modelled from the spec: the federation routing directives, whose
definitions are never reprinted (`isFederationDirective` lives outside the
sources under verification). -/
def federationDirectiveNames : List String :=
  ["key", "requires", "provides", "external", "extends"]

def isSpecifiedDirective (d : PDirective) : Bool := specifiedDirectiveNames.contains d.name

def isFederationDirective (d : PDirective) : Bool := federationDirectiveNames.contains d.name

/-- The built-in scalar names (graphql-js `isSpecifiedScalarType`). -/
def specifiedScalarNames : List String := ["String", "Int", "Float", "Boolean", "ID"]

/-- The introspection type names (graphql-js `isIntrospectionType`). -/
def introspectionTypeNames : List String :=
  ["__Schema", "__Directive", "__DirectiveLocation", "__Type", "__Field",
   "__InputValue", "__EnumValue", "__TypeKind"]

/-- Modelled from the spec: the federation-internal type names, never
reprinted (`isFederationType` lives outside the sources under verification). -/
def federationTypeNames : List String := ["_Any", "_Entity", "_Service", "_FieldSet"]

def isSpecifiedScalarType (t : PType) : Bool :=
  match t with
  | .scalar s => specifiedScalarNames.contains s.name
  | _ => false

def isIntrospectionType (t : PType) : Bool := introspectionTypeNames.contains t.name

def isFederationType (t : PType) : Bool := federationTypeNames.contains t.name

/-- `isDefinedType`: the type filter of `printComposedSdl`. -/
def isDefinedType (t : PType) : Bool :=
  !isSpecifiedScalarType t && !isIntrospectionType t && !isFederationType t

/-- Code-point comparison of character lists (`localeCompare <= 0`, locale
order taken as code-point order). -/
def charListLeB : List Char → List Char → Bool
  | [], _ => true
  | _ :: _, [] => false
  | a :: as, b :: bs =>
    if a.toNat < b.toNat then true
    else if b.toNat < a.toNat then false
    else charListLeB as bs

/-- Code-point comparison of strings. -/
def strLeB (a b : String) : Bool := charListLeB a.data b.data

/-- Insert a type into a name-sorted list. -/
def insertByName (t : PType) : List PType → List PType
  | [] => [t]
  | u :: rest => if strLeB t.name u.name then t :: u :: rest else u :: insertByName t rest

/-- The type map sorted by name, modelling
`sort((t1, t2) => t1.name.localeCompare(t2.name))` with locale order taken as
code-point order (all names in this development are plain ASCII). -/
def sortTypesByName : List PType → List PType
  | [] => []
  | t :: rest => insertByName t (sortTypesByName rest)

/-- Print a list of types in order, threading the process state. -/
def mapPrintTypes (opts : Option Options) :
    List PType → PrinterState → Except String (List String × PrinterState)
  | [], st => Except.ok ([], st)
  | t :: rest, st =>
    match printType t opts st with
    | Except.error e => Except.error e
    | Except.ok (s, st1) =>
      match mapPrintTypes opts rest st1 with
      | Except.error e => Except.error e
      | Except.ok (ss, st2) => Except.ok (s :: ss, st2)

/-- `.filter(Boolean).join('\n\n') + '\n'` over the document parts. -/
def joinSdlParts (parts : List String) : String :=
  String.intercalate "\n\n" (parts.filter fun s => s != "") ++ "\n"

/-- `printFilteredSchema`: schema block, the fixed csdl definition blocks,
the graphs enum, the filtered directive definitions in declaration order,
then the sorted, filtered types. -/
def printFilteredSchema (csdlDefinitions : List String) (schema : PSchema)
    (serviceList : List ServiceDef)
    (directiveFilter : PDirective → Bool) (typeFilter : PType → Bool)
    (opts : Option Options) (st : PrinterState) : Except String (String × PrinterState) :=
  let directives := schema.directives.filter directiveFilter
  let types := (sortTypesByName schema.typeMap).filter typeFilter
  match mapPrintTypes opts types st with
  | Except.error e => Except.error e
  | Except.ok (typeStrs, st1) =>
    Except.ok (joinSdlParts
      ([printSchemaDefinition schema] ++ csdlDefinitions ++ [printGraphs serviceList] ++
        directives.map (fun d => printDirective d opts) ++ typeStrs), st1)

/-- `printComposedSdl`.  The `csdlDefinitions` parameter models the fixed
list of definition blocks imported from `../csdlDefinitions`, a module that
is not among the sources under verification; its content is left as a
parameter of the whole development. -/
def printComposedSdl (csdlDefinitions : List String) (schema : PSchema)
    (serviceList : List ServiceDef) (opts : Option Options) (st : PrinterState) :
    Except String (String × PrinterState) :=
  printFilteredSchema csdlDefinitions schema serviceList
    (fun n => !isSpecifiedDirective n && !isFederationDirective n) isDefinedType opts st

/-! ## Concrete serializer inputs used by witnesses and counterexamples -/

/-- The single contributing service of the demo schemas. -/
def demoServices : List ServiceDef := [⟨"A", "https://a.example.com"⟩]

/-- `Product.id`, owned by `A`. -/
def productIdField : PField :=
  ⟨"id", none, [], .nonNull (.named "ID"), false, none, some ⟨some "A", [], []⟩⟩

/-- The entity `Product`, keyed on `id` by service `A`. -/
def productObj : PObj :=
  ⟨"Product", none, [], [productIdField], some ⟨some ["id"]⟩, none,
    some ⟨some "A", some [("A", some [[Selection.field "id" []]])]⟩⟩

/-- The root `Query` type. -/
def queryObj : PObj :=
  ⟨"Query", none, [],
    [⟨"product", none, [], .named "Product", false, none, some ⟨some "A", [], []⟩⟩],
    some ⟨some ["product"]⟩, none, some ⟨some "A", none⟩⟩

/-- A demo schema with a root type and one keyed entity. -/
def sdlSchema : PSchema :=
  ⟨some "Query", none, none, [], [.object queryObj, .object productObj]⟩

/-- `Product.x`, the field the `@requires` of `a` and `b` select. -/
def dedupXField : PField :=
  ⟨"x", none, [], .named "Int", false, none, some ⟨some "A", [], []⟩⟩

/-- `Product.a`, with `requires: "x"`. -/
def dedupAField : PField :=
  ⟨"a", none, [], .named "Int", false, none,
    some ⟨some "A", [Selection.field "x" []], []⟩⟩

/-- `Product.b`, with the byte-identical `requires: "x"`. -/
def dedupBField : PField :=
  ⟨"b", none, [], .named "Int", false, none,
    some ⟨some "A", [Selection.field "x" []], []⟩⟩

/-- An entity with two fields whose `@requires` field sets print to the same
text — the dedup cache should make them share one fragment. -/
def dedupProduct : PObj :=
  ⟨"Product", none, [], [dedupXField, dedupAField, dedupBField], some ⟨some ["x"]⟩, none,
    some ⟨some "A", some [("A", some [[Selection.field "x" []]])]⟩⟩

/-- A schema around `dedupProduct`. -/
def dedupSchema : PSchema :=
  ⟨some "Query", none, none, [], [.object queryObj, .object dedupProduct]⟩

/-- A custom directive named `zeta`, declared first. -/
def zetaDirective : PDirective := ⟨"zeta", none, [], false, ["FIELD"]⟩

/-- A custom directive named `alpha`, declared second. -/
def alphaDirective : PDirective := ⟨"alpha", none, [], false, ["FIELD"]⟩

/-- A schema whose custom directives are declared in non-alphabetical order. -/
def c6Schema : PSchema :=
  ⟨some "Query", none, none, [zetaDirective, alphaDirective],
    [.object queryObj, .object productObj]⟩

/-- Two `printComposedSdl` calls in one process: the second call receives the
state the first one left in the module and on the type objects.  Returns the
two documents when both calls succeed. -/
def runTwice (csdlDefinitions : List String) (schema : PSchema)
    (serviceList : List ServiceDef) : Option (String × String) :=
  match printComposedSdl csdlDefinitions schema serviceList none initPrinterState with
  | Except.ok (o1, st1) =>
    match printComposedSdl csdlDefinitions schema serviceList none st1 with
    | Except.ok (o2, _) => some (o1, o2)
    | Except.error _ => none
  | Except.error _ => none

/-- Insert a directive into a name-sorted list. -/
def insertDirByName (d : PDirective) : List PDirective → List PDirective
  | [] => [d]
  | u :: rest => if strLeB d.name u.name then d :: u :: rest else u :: insertDirByName d rest

/-- Directive definitions sorted by name. -/
def sortDirectivesByName : List PDirective → List PDirective
  | [] => []
  | d :: rest => insertDirByName d (sortDirectivesByName rest)

/-- The document exactly as claim C6 words it: a schema-definition block,
then the service enum, then the filtered directive definitions sorted by
name, then the filtered types sorted by name — nothing else.  This follows
the claim's words, for comparison against `printComposedSdl`. -/
def claimedComposedSdlC6 (schema : PSchema) (serviceList : List ServiceDef)
    (opts : Option Options) (st : PrinterState) : Except String (String × PrinterState) :=
  let directives := sortDirectivesByName
    (schema.directives.filter fun n => !isSpecifiedDirective n && !isFederationDirective n)
  let types := (sortTypesByName schema.typeMap).filter isDefinedType
  match mapPrintTypes opts types st with
  | Except.error e => Except.error e
  | Except.ok (typeStrs, st1) =>
    Except.ok (joinSdlParts
      ([printSchemaDefinition schema] ++ [printGraphs serviceList] ++
        directives.map (fun d => printDirective d opts) ++ typeStrs), st1)

/-- The fragment bookkeeping left on the `Product` type object after printing
`dedupProduct`: two cached fragments with byte-identical bodies under two
distinct names, and the counter at 2. -/
def dedupProductFrags : TypeFragState :=
  ⟨some
    [("cs__fragmentOn_Product_x_0",
      ⟨"cs__fragmentOn_Product_x_0",
       "fragment cs__fragmentOn_Product_x_0 on Product \x7b x \x7d"⟩),
     ("cs__fragmentOn_Product_x_1",
      ⟨"cs__fragmentOn_Product_x_1",
       "fragment cs__fragmentOn_Product_x_1 on Product \x7b x \x7d"⟩)],
   some 2⟩

/-! ## Theorems about the serializer -/

set_option maxRecDepth 16384

/-- C2 fails on the code: the key-fragment counter is module-scoped and is
never reset, so the second `printComposedSdl` call in the same process does
not start from fresh serializer state and returns a different document — the
key fragment is named `cs__keyFor_Product_0` in the first document and
`cs__keyFor_Product_1` in the second, and the first call already leaves the
counter at 1.  The spec (§4.4, §5, §9) requires the counter not to leak
across calls, so this is a bug in the code, not in the claim. -/
theorem printComposedSdl_key_counter_leaks :
    runTwice [] sdlSchema demoServices = some
      ("schema @using(spec: \"https://specs.apollo.dev/cs/v0.1\")\n\x7b\n  query: Query\n\x7d\n\nenum cs__Graph \x7b\n  A @cs__link(to: \x7b http: \x7b url: \"https://a.example.com\" \x7d \x7d)\n\x7d\n\ntype Product\n\x7b\n  id: ID! @cs__resolve(graph: A)\n\x7d\nfragment cs__keyFor_Product_0 on Product @cs__key(graph: A) \x7b id \x7d\n\n\ntype Query \x7b\n  product: Product @cs__resolve(graph: A)\n\x7d\n",
       "schema @using(spec: \"https://specs.apollo.dev/cs/v0.1\")\n\x7b\n  query: Query\n\x7d\n\nenum cs__Graph \x7b\n  A @cs__link(to: \x7b http: \x7b url: \"https://a.example.com\" \x7d \x7d)\n\x7d\n\ntype Product\n\x7b\n  id: ID! @cs__resolve(graph: A)\n\x7d\nfragment cs__keyFor_Product_1 on Product @cs__key(graph: A) \x7b id \x7d\n\n\ntype Query \x7b\n  product: Product @cs__resolve(graph: A)\n\x7d\n") ∧
    (runTwice [] sdlSchema demoServices).map (fun p => p.1 == p.2) = some false ∧
    Except.map (fun p => p.snd.nextKeyId)
      (printComposedSdl [] sdlSchema demoServices none initPrinterState) = Except.ok 1 := by
  refine ⟨by decide, by decide, by decide⟩

/-- C3 fails on the code: `findOrCreateFragment` looks its cache up under the
printed field-set text but stores under the generated fragment name, so the
lookup never hits.  Two fields of `Product` with the byte-identical
`requires` text `\x7b x \x7d` get two distinct fragments,
`cs__fragmentOn_Product_x_0` and `cs__fragmentOn_Product_x_1`, each field's
resolution directive referencing its own; both end up cached on the type.
The dead `existing` lookup and the spec (§4.4, P4) show deduplication was the
intent, so this is a bug in the code, not in the claim. -/
theorem findOrCreateFragment_no_dedup :
    (findOrCreateFragment "Product" [Selection.field "x" []] initPrinterState).fst =
      "cs__fragmentOn_Product_x_0" ∧
    (findOrCreateFragment "Product" [Selection.field "x" []]
        (findOrCreateFragment "Product" [Selection.field "x" []] initPrinterState).snd).fst =
      "cs__fragmentOn_Product_x_1" ∧
    printFields none (objTypeView dedupProduct) initPrinterState = Except.ok
      ("\n\x7b\n  x: Int @cs__resolve(graph: A)\n  a: Int @cs__resolve(graph: A, requires: \"cs__fragmentOn_Product_x_0\")\n  b: Int @cs__resolve(graph: A, requires: \"cs__fragmentOn_Product_x_1\")\n\x7d",
       ⟨0, [("Product", dedupProductFrags)]⟩) := by
  refine ⟨by decide, by decide, by decide⟩

/-- Transitivity of the code-point order on character lists. -/
theorem charListLeB_trans (a b c : List Char) (hab : charListLeB a b = true)
    (hbc : charListLeB b c = true) : charListLeB a c = true := by
  induction a generalizing b c with
  | nil => rfl
  | cons x xs ih =>
    cases b with
    | nil => simp [charListLeB] at hab
    | cons y ys =>
      cases c with
      | nil => simp [charListLeB] at hbc
      | cons z zs =>
        simp only [charListLeB] at hab hbc ⊢
        by_cases h1 : x.toNat < y.toNat
        · by_cases h2 : y.toNat < z.toNat
          · have hxz : x.toNat < z.toNat := by omega
            simp [hxz]
          · by_cases h3 : z.toNat < y.toNat
            · rw [if_neg h2, if_pos h3] at hbc
              exact absurd hbc (by simp)
            · have hxz : x.toNat < z.toNat := by omega
              simp [hxz]
        · by_cases h4 : y.toNat < x.toNat
          · rw [if_neg h1, if_pos h4] at hab
            exact absurd hab (by simp)
          · by_cases h2 : y.toNat < z.toNat
            · have hxz : x.toNat < z.toNat := by omega
              simp [hxz]
            · by_cases h3 : z.toNat < y.toNat
              · rw [if_neg h2, if_pos h3] at hbc
                exact absurd hbc (by simp)
              · have hnxz : ¬ x.toNat < z.toNat := by omega
                have hnzx : ¬ z.toNat < x.toNat := by omega
                rw [if_neg h1, if_neg h4] at hab
                rw [if_neg h2, if_neg h3] at hbc
                rw [if_neg hnxz, if_neg hnzx]
                exact ih ys zs hab hbc

/-- Totality of the code-point order on character lists. -/
theorem charListLeB_total (a b : List Char) :
    charListLeB a b = true ∨ charListLeB b a = true := by
  induction a generalizing b with
  | nil => exact Or.inl rfl
  | cons x xs ih =>
    cases b with
    | nil => exact Or.inr rfl
    | cons y ys =>
      simp only [charListLeB]
      rcases Nat.lt_trichotomy x.toNat y.toNat with h | h | h
      · exact Or.inl (by simp [h])
      · have hn1 : ¬ x.toNat < y.toNat := by omega
        have hn2 : ¬ y.toNat < x.toNat := by omega
        rcases ih ys with h2 | h2
        · exact Or.inl (by simp [hn1, hn2, h2])
        · exact Or.inr (by simp [hn1, hn2, h2])
      · exact Or.inr (by simp [h])

/-- Totality of the code-point order on strings. -/
theorem strLeB_total (a b : String) : strLeB a b = true ∨ strLeB b a = true :=
  charListLeB_total a.data b.data

/-- Membership in an insertion. -/
theorem mem_insertByName {t b : PType} {l : List PType} :
    b ∈ insertByName t l ↔ b = t ∨ b ∈ l := by
  induction l with
  | nil => simp [insertByName]
  | cons u rest ih =>
    simp only [insertByName]
    by_cases h : strLeB t.name u.name = true
    · rw [if_pos h]
      simp [List.mem_cons]
    · rw [if_neg h]
      simp [List.mem_cons, ih]
      tauto

/-- Insertion into a name-sorted list keeps it name-sorted. -/
theorem pairwise_insertByName {t : PType} {l : List PType}
    (h : l.Pairwise (fun a b => strLeB a.name b.name = true)) :
    (insertByName t l).Pairwise (fun a b => strLeB a.name b.name = true) := by
  induction l with
  | nil => simp [insertByName]
  | cons u rest ih =>
    rcases List.pairwise_cons.mp h with ⟨hu, hrest⟩
    simp only [insertByName]
    by_cases hle : strLeB t.name u.name = true
    · rw [if_pos hle]
      refine List.pairwise_cons.mpr ⟨?_, h⟩
      intro b hb
      rcases List.mem_cons.mp hb with rfl | hb
      · exact hle
      · exact charListLeB_trans _ _ _ hle (hu b hb)
    · rw [if_neg hle]
      refine List.pairwise_cons.mpr ⟨?_, ih hrest⟩
      intro b hb
      rcases mem_insertByName.mp hb with rfl | hb
      · rcases strLeB_total u.name b.name with h2 | h2
        · exact h2
        · exact absurd h2 hle
      · exact hu b hb

/-- Insertion is a permutation of consing. -/
theorem insertByName_perm (t : PType) (l : List PType) :
    (insertByName t l).Perm (t :: l) := by
  induction l with
  | nil => exact List.Perm.refl _
  | cons u rest ih =>
    simp only [insertByName]
    by_cases h : strLeB t.name u.name = true
    · rw [if_pos h]
    · rw [if_neg h]
      exact List.Perm.trans (List.Perm.cons u ih) (List.Perm.swap t u rest)

/-- The sort emits a permutation of the type map. -/
theorem sortTypesByName_perm (l : List PType) : (sortTypesByName l).Perm l := by
  induction l with
  | nil => exact List.Perm.refl _
  | cons t rest ih =>
    simp only [sortTypesByName]
    exact List.Perm.trans (insertByName_perm t (sortTypesByName rest)) (List.Perm.cons t ih)

/-- The sort emits a name-sorted list. -/
theorem sortTypesByName_pairwise (l : List PType) :
    (sortTypesByName l).Pairwise (fun a b => strLeB a.name b.name = true) := by
  induction l with
  | nil => simp [sortTypesByName]
  | cons t rest ih => exact pairwise_insertByName ih

/-- C6 fails on the code as stated: the directive definitions are rendered in
schema declaration order, not sorted by name.  On `c6Schema`, whose custom
directives are declared `zeta` then `alpha`, the code prints `@zeta` before
`@alpha`, while the document the claim describes (`claimedComposedSdlC6`)
prints `@alpha` first; the two documents differ. -/
theorem printComposedSdl_directive_order_counterexample :
    Except.map (fun p => p.fst)
        (printComposedSdl [] c6Schema demoServices none initPrinterState) =
      Except.ok "schema @using(spec: \"https://specs.apollo.dev/cs/v0.1\")\n\x7b\n  query: Query\n\x7d\n\nenum cs__Graph \x7b\n  A @cs__link(to: \x7b http: \x7b url: \"https://a.example.com\" \x7d \x7d)\n\x7d\n\ndirective @zeta on FIELD\n\ndirective @alpha on FIELD\n\ntype Product\n\x7b\n  id: ID! @cs__resolve(graph: A)\n\x7d\nfragment cs__keyFor_Product_0 on Product @cs__key(graph: A) \x7b id \x7d\n\n\ntype Query \x7b\n  product: Product @cs__resolve(graph: A)\n\x7d\n" ∧
    Except.map (fun p => p.fst)
        (claimedComposedSdlC6 c6Schema demoServices none initPrinterState) =
      Except.ok "schema @using(spec: \"https://specs.apollo.dev/cs/v0.1\")\n\x7b\n  query: Query\n\x7d\n\nenum cs__Graph \x7b\n  A @cs__link(to: \x7b http: \x7b url: \"https://a.example.com\" \x7d \x7d)\n\x7d\n\ndirective @alpha on FIELD\n\ndirective @zeta on FIELD\n\ntype Product\n\x7b\n  id: ID! @cs__resolve(graph: A)\n\x7d\nfragment cs__keyFor_Product_0 on Product @cs__key(graph: A) \x7b id \x7d\n\n\ntype Query \x7b\n  product: Product @cs__resolve(graph: A)\n\x7d\n" ∧
    printComposedSdl [] c6Schema demoServices none initPrinterState ≠
      claimedComposedSdlC6 c6Schema demoServices none initPrinterState := by
  refine ⟨by decide, by decide, by decide⟩

/-- C6 amended: the document consists, in order, of the schema-definition
block (with the fixed `@using` linking directive), the fixed csdl definition
blocks, the service enum with one `@cs__link`-carrying value per service, the
directive definitions that are neither GraphQL built-ins nor federation
directives in schema declaration order (not sorted), and the types that are
neither built-in scalars, introspection types nor federation-internal types
sorted by name — the sort being a name-ordered permutation of the type map. -/
theorem printComposedSdl_document_structure (csdl : List String) (schema : PSchema)
    (serviceList : List ServiceDef) (opts : Option Options) (st : PrinterState) :
    printComposedSdl csdl schema serviceList opts st =
      (match mapPrintTypes opts ((sortTypesByName schema.typeMap).filter isDefinedType) st with
       | Except.error e => Except.error e
       | Except.ok (typeStrs, st1) =>
         Except.ok (joinSdlParts
           ([printSchemaDefinition schema] ++ csdl ++ [printGraphs serviceList] ++
             (schema.directives.filter
               (fun n => !isSpecifiedDirective n && !isFederationDirective n)).map
               (fun d => printDirective d opts) ++ typeStrs), st1)) ∧
    (sortTypesByName schema.typeMap).Pairwise (fun a b => strLeB a.name b.name = true) ∧
    (sortTypesByName schema.typeMap).Perm schema.typeMap :=
  ⟨rfl, sortTypesByName_pairwise _, sortTypesByName_perm _⟩

/-- C7 fails on the code: a `printComposedSdl` call does not leave the schema
graph and the process unchanged.  Serializing `dedupSchema` from a fresh
process state ends with the module key counter at 1 and the two synthesized
fragments (plus the fragment counter at 2) stored on the `Product` type
object of the input schema — state that outlives the call, is not discarded,
and is observed by the next call.  The spec (§3 lifecycle, §5, §9) requires
all such bookkeeping to be call-scoped, so this is a bug in the code, not in
the claim. -/
theorem printComposedSdl_state_persists :
    Except.map (fun p => p.snd)
        (printComposedSdl [] dedupSchema demoServices none initPrinterState) =
      Except.ok ⟨1, [("Product", dedupProductFrags)]⟩ ∧
    (⟨1, [("Product", dedupProductFrags)]⟩ : PrinterState) ≠ initPrinterState := by
  refine ⟨by decide, by decide⟩

/-- The `extend` test is true exactly when extension nodes are present and
the base AST node exists but declares no fields. -/
theorem jsIsExtension_iff (e : Option Unit) (a : Option PTypeAst) :
    jsIsExtension e a = true ↔ (e ≠ none ∧ ∃ x, a = some x ∧ x.fields = none) := by
  cases e <;> cases a <;> simp [jsIsExtension, Option.isNone_iff_eq_none]

/-- The first seven characters of a string starting with `extend `. -/
theorem take7_extendPrefix (s : String) : ("extend " ++ s).data.take 7 = "extend ".data := rfl

/-- A string starting with `type ` does not start with `extend `. -/
theorem take7_typePrefix_ne (s : String) :
    ("type " ++ s).data.take 7 ≠ "extend ".data := by
  intro h
  rw [show ("type " ++ s).data.take 7 = 't' :: 'y' :: 'p' :: 'e' :: ' ' :: s.data.take 2
      from rfl] at h
  simp at h

/-- A string starting with `interface ` does not start with `extend `. -/
theorem take7_ifacePrefix_ne (s : String) :
    ("interface " ++ s).data.take 7 ≠ "extend ".data := by
  intro h
  rw [show ("interface " ++ s).data.take 7 = ['i', 'n', 't', 'e', 'r', 'f', 'a']
      from rfl] at h
  simp at h

/-- C8: for a (description-free) Object or Interface type, the printed
declaration starts with the keyword `extend` if and only if the type's
declaration AST has extension nodes and its base AST node declares no fields
— the type is purely an extension; otherwise the declaration starts with
`type` / `interface` directly. -/
theorem extend_keyword_iff_pure_extension :
    (∀ (opts : Option Options) (o : PObj) (st st2 : PrinterState) (out : String),
      o.description = none →
      printObject opts o st = Except.ok (out, st2) →
      (out.data.take 7 = "extend ".data ↔
        (o.extensionASTNodes ≠ none ∧ ∃ a, o.astNode = some a ∧ a.fields = none))) ∧
    (∀ (opts : Option Options) (o : PIface) (st st2 : PrinterState) (out : String),
      o.description = none →
      printInterface opts o st = Except.ok (out, st2) →
      (out.data.take 7 = "extend ".data ↔
        (o.extensionASTNodes ≠ none ∧ ∃ a, o.astNode = some a ∧ a.fields = none))) := by
  constructor
  · intro opts o st st2 out hdesc hok
    unfold printObject at hok
    cases hpf : printFields opts (objTypeView o) st with
    | error e =>
      rw [hpf] at hok
      exact absurd hok (by simp)
    | ok pr =>
      obtain ⟨fieldsStr, st1⟩ := pr
      rw [hpf] at hok
      simp only [Except.ok.injEq, Prod.mk.injEq] at hok
      obtain ⟨hout, hst⟩ := hok
      subst hout
      rw [hdesc]
      rw [show printDescription opts none "" true = "" from rfl]
      rw [String.empty_append]
      rw [← jsIsExtension_iff o.extensionASTNodes o.astNode]
      by_cases hext : jsIsExtension o.extensionASTNodes o.astNode = true
      · rw [if_pos hext]
        simp only [String.append_assoc]
        exact iff_of_true (take7_extendPrefix _) hext
      · rw [if_neg hext]
        rw [String.empty_append]
        simp only [String.append_assoc]
        exact iff_of_false (take7_typePrefix_ne _) hext
  · intro opts o st st2 out hdesc hok
    unfold printInterface at hok
    cases hpf : printFields opts (ifaceTypeView o) st with
    | error e =>
      rw [hpf] at hok
      exact absurd hok (by simp)
    | ok pr =>
      obtain ⟨fieldsStr, st1⟩ := pr
      rw [hpf] at hok
      simp only [Except.ok.injEq, Prod.mk.injEq] at hok
      obtain ⟨hout, hst⟩ := hok
      subst hout
      rw [hdesc]
      rw [show printDescription opts none "" true = "" from rfl]
      rw [String.empty_append]
      rw [← jsIsExtension_iff o.extensionASTNodes o.astNode]
      by_cases hext : jsIsExtension o.extensionASTNodes o.astNode = true
      · rw [if_pos hext]
        simp only [String.append_assoc]
        exact iff_of_true (take7_extendPrefix _) hext
      · rw [if_neg hext]
        rw [String.empty_append]
        simp only [String.append_assoc]
        exact iff_of_false (take7_ifacePrefix_ne _) hext

/-- A type that is purely an extension: extension nodes present, base AST
node present with no field declarations. -/
def extObj : PObj :=
  ⟨"Ext", none, [],
    [⟨"w", none, [], .named "Int", false, none, some ⟨some "A", [], []⟩⟩],
    some ⟨none⟩, some (), some ⟨some "A", none⟩⟩

/-- C8 witness: `extObj` is a pure extension and its printout starts with
`extend `; the theorem applied to the evaluated printout confirms the
equivalence at this concrete input. -/
theorem extend_keyword_iff_pure_extension_witness :
    extObj.description = none ∧
    printObject none extObj initPrinterState =
      Except.ok ("extend type Ext \x7b\n  w: Int @cs__resolve(graph: A)\n\x7d",
        initPrinterState) ∧
    ("extend type Ext \x7b\n  w: Int @cs__resolve(graph: A)\n\x7d" : String).data.take 7 =
      "extend ".data ∧
    (extObj.extensionASTNodes ≠ none ∧ ∃ a, extObj.astNode = some a ∧ a.fields = none) := by
  have hcond : extObj.extensionASTNodes ≠ none ∧
      ∃ a, extObj.astNode = some a ∧ a.fields = none :=
    ⟨by decide, ⟨⟨none⟩, rfl, rfl⟩⟩
  refine ⟨rfl, by decide, ?_, hcond⟩
  exact (extend_keyword_iff_pure_extension.1 none extObj initPrinterState initPrinterState
    "extend type Ext \x7b\n  w: Int @cs__resolve(graph: A)\n\x7d" rfl (by decide)).mpr hcond

/-- A field with no federation metadata. -/
def noMetaField : PField := ⟨"f", none, [], .named "Int", false, none, none⟩

/-- A type with no federation metadata declaring `noMetaField`. -/
def badObj : PObj :=
  ⟨"Bad", none, [], [noMetaField], some ⟨some ["f"]⟩, none, none⟩

/-- A schema containing `badObj`: serializing it must abort. -/
def c10Schema : PSchema := ⟨none, none, none, [], [.object badObj]⟩

/-- C10: when a field has no federation metadata the printer falls back to
destructuring the declaring type's metadata unconditionally — a thrown
`TypeError` when that is also absent, which aborts the whole
`printComposedSdl` call (third conjunct, on the concrete `c10Schema`); when
only the field's metadata is absent, the field's resolution directive names
the type's owning service. -/
theorem printFederationFieldDirectives_fallback
    (tname : String) (typeFederation : Option PTypeFed) (f : PField) (st : PrinterState)
    (hf : f.federation = none) :
    (typeFederation = none →
      printFederationFieldDirectives tname typeFederation f st =
        Except.error
          "TypeError: cannot destructure serviceName of undefined federation metadata") ∧
    (∀ m s, typeFederation = some m → m.serviceName = some s →
      printFederationFieldDirectives tname typeFederation f st =
        Except.ok (" @cs__resolve(graph: " ++ s ++ ")", st)) ∧
    printComposedSdl [] c10Schema demoServices none initPrinterState =
      Except.error
        "TypeError: cannot destructure serviceName of undefined federation metadata" := by
  refine ⟨?_, ?_, by decide⟩
  · intro h
    subst h
    simp [printFederationFieldDirectives, hf]
  · intro m s hm hs
    subst hm
    simp [printFederationFieldDirectives, hf, hs, undefinedStr]

/-- C10 witness: on `noMetaField`, the fallback with no type metadata aborts
with the destructuring error, and with type metadata owned by `A` it prints
`@cs__resolve(graph: A)`. -/
theorem printFederationFieldDirectives_fallback_witness :
    noMetaField.federation = none ∧
    printFederationFieldDirectives "Bad" none noMetaField initPrinterState =
      Except.error
        "TypeError: cannot destructure serviceName of undefined federation metadata" ∧
    printFederationFieldDirectives "Good" (some ⟨some "A", none⟩) noMetaField initPrinterState =
      Except.ok (" @cs__resolve(graph: A)", initPrinterState) := by
  have h := printFederationFieldDirectives_fallback "Bad" none noMetaField initPrinterState rfl
  exact ⟨rfl, h.1 rfl, by decide⟩

end Fed
